import Mathlib

/-!
Verification of the geminiproxy request orchestration engine.

Shallow embedding of `gemini_api.py` (rate limiter, command executor,
retrying prompt runner with cache) and of the async job registry in
`gemini_server.py`.  Conventions of the embedding:

* Clock values are integer seconds (plain `Int`); the SQLite
  `datetime` comparisons of the source become integer comparisons.
* The md5 fingerprints of the source are modelled as the identity on the
  fingerprinted data (the spec places hash collisions out of scope): the
  rate-limit table stores the prompt itself, and the response cache is
  keyed by the pair `(prompt, extra_flags)`.
* The subprocess run by `_execute_gemini_command` is an oracle
  `Nat → ProcOutcome` giving, for each invocation (numbered globally by
  `APIState.execCount`), the behaviour of the child process.
* `APIState.execCount` and `APIState.admitCalls` instrument how many
  times the executor and `can_make_request` have been invoked, so that
  "the executor is never called" is expressible.
* `time.sleep` calls are logged in `PromptOut.sleeps` (in seconds).
-/

namespace GeminiProxy

/-- A row of the `requests` table kept by `GeminiRateLimiter`
(`timestamp DATETIME`, `prompt_hash TEXT`, `response_length INTEGER`). -/
structure RateRecord where
  timestamp : Int
  promptHash : String
  responseLength : Nat
deriving Repr, DecidableEq

/-- The persistent state of `GeminiRateLimiter`: the configured
`max_requests_per_hour` and the stored rows. -/
structure RateLimiterState where
  maxRequests : Nat
  records : List RateRecord
deriving Repr, DecidableEq

/-- `timestamp > datetime('now', '-1 hour')`: the record counts against the
trailing one-hour window. -/
def inWindow (now : Int) (r : RateRecord) : Bool :=
  decide (now - 3600 < r.timestamp)

/-- `timestamp < datetime('now', '-1 hour')`: the record is deleted by the
lazy prune in `can_make_request`. -/
def expired (now : Int) (r : RateRecord) : Bool :=
  decide (r.timestamp < now - 3600)

/-- The `DELETE FROM requests WHERE timestamp < datetime('now', '-1 hour')`
step of `can_make_request`. -/
def pruneRecords (l : List RateRecord) (now : Int) : List RateRecord :=
  l.filter (fun r => ! expired now r)

/-- Number of stored records inside the trailing 3600-second window. -/
def inWindowCount (s : RateLimiterState) (now : Int) : Nat :=
  (s.records.filter (inWindow now)).length

/-- Return value of `GeminiRateLimiter.can_make_request` together with the
limiter state it leaves behind (the Python method mutates the database). -/
structure AdmitResult where
  limiter : RateLimiterState
  allowed : Bool
  waitTime : Option Int
deriving Repr, DecidableEq

/-- `GeminiRateLimiter.can_make_request`: prune expired rows, count the rows
still inside the window; admit if the count is below `max_requests`,
otherwise report the wait until the oldest in-window row ages out
(`max(1, oldest + 1h - now)`), or 60 seconds if no row is found. -/
def can_make_request (s : RateLimiterState) (now : Int) : AdmitResult :=
  if ((pruneRecords s.records now).filter (inWindow now)).length < s.maxRequests then
    { limiter := { s with records := pruneRecords s.records now }, allowed := true,
      waitTime := none }
  else
    match (((pruneRecords s.records now).filter (inWindow now)).map RateRecord.timestamp).min? with
    | some oldest =>
        { limiter := { s with records := pruneRecords s.records now }, allowed := false,
          waitTime := some (max 1 (oldest + 3600 - now)) }
    | none =>
        { limiter := { s with records := pruneRecords s.records now }, allowed := false,
          waitTime := some 60 }

/-- `GeminiRateLimiter.record_request`: insert a row timestamped now
(md5 of the prompt modelled as the prompt itself). -/
def record_request (s : RateLimiterState) (now : Int) (promptText : String)
    (responseLength : Nat) : RateLimiterState :=
  { s with records := s.records ++ [⟨now, promptText, responseLength⟩] }

/-- `start of day` of the SQLite query in `get_usage_stats`, for an integer
clock counting seconds: midnight of the current epoch day. -/
def startOfDay (now : Int) : Int :=
  86400 * (now / 86400)

/-- Return value of `GeminiRateLimiter.get_usage_stats`. -/
structure UsageStats where
  requests_last_hour : Nat
  requests_today : Nat
  remaining_this_hour : Int
  max_per_hour : Nat
deriving Repr, DecidableEq

/-- `GeminiRateLimiter.get_usage_stats`: counts over the stored rows. -/
def get_usage_stats (s : RateLimiterState) (now : Int) : UsageStats :=
  { requests_last_hour := (s.records.filter (inWindow now)).length
  , requests_today := (s.records.filter (fun r => decide (startOfDay now < r.timestamp))).length
  , remaining_this_hour := (s.maxRequests : Int) - ((s.records.filter (inWindow now)).length : Int)
  , max_per_hour := s.maxRequests }

/-- Configuration of `GeminiAPI` (`auto_approve`, `checkpointing`,
`max_retries`). -/
structure APIConfig where
  autoApprove : Bool
  checkpointing : Bool
  maxRetries : Nat
deriving Repr, DecidableEq

/-- Behaviour of one `subprocess.run` invocation of the external tool:
the child exits with a code and captured stdout/stderr, exceeds the
300-second timeout, or the spawn itself raises. -/
inductive ProcOutcome where
  | exited (code : Int) (stdout : String) (stderr : String)
  | timedOut
  | raised (msg : String)
deriving Repr, DecidableEq

/-- The result dictionaries produced by `gemini_api.py`, with `none`
standing for an absent key and `from_cache` absent read as `false`. -/
structure Result where
  success : Bool := false
  output : Option String := none
  error : Option String := none
  command : Option String := none
  wait_time : Option Int := none
  usage : Option UsageStats := none
  attempt : Option Nat := none
  from_cache : Bool := false
deriving Repr, DecidableEq

/-- The argument vector built by `_execute_gemini_command`. -/
def buildCmd (cfg : APIConfig) (text : String) (extraFlags : Option (List String)) :
    List String :=
  ["gemini"]
    ++ (if cfg.autoApprove then ["--yolo"] else [])
    ++ (if cfg.checkpointing then ["--checkpointing"] else [])
    ++ (match extraFlags with | some fs => fs | none => [])
    ++ ["-p", text]

/-- `GeminiAPI._execute_gemini_command`: success iff the child exits 0; the
`output` key always holds the captured stdout when the child ran to
completion; `error` holds stderr on a non-zero exit, and a message on
timeout or spawn failure. -/
def execCmd (cfg : APIConfig) (text : String) (extraFlags : Option (List String))
    (o : ProcOutcome) : Result :=
  match o with
  | ProcOutcome.exited code out err =>
      { success := decide (code = 0), output := some out,
        error := if code = 0 then none else some err,
        command := some (String.intercalate " " (buildCmd cfg text extraFlags)) }
  | ProcOutcome.timedOut =>
      { success := false, output := none,
        error := some "Command timed out after 5 minutes",
        command := some (String.intercalate " " (buildCmd cfg text extraFlags)) }
  | ProcOutcome.raised msg =>
      { success := false, output := none, error := some msg,
        command := some (String.intercalate " " (buildCmd cfg text extraFlags)) }

/-- Cache keys: md5 of `f"{text}{extra_flags}"`, modelled injectively as the
pair itself. -/
abbrev CacheKey := String × Option (List String)

/-- Lookup in the in-memory `response_cache` dictionary. -/
def lookupCache : List (CacheKey × Result) → CacheKey → Option Result
  | [], _ => none
  | (k, v) :: rest, key => if k = key then some v else lookupCache rest key

/-- Dictionary assignment `response_cache[key] = v`; the most recent binding
shadows older ones for `lookupCache`. -/
def insertCache (c : List (CacheKey × Result)) (k : CacheKey) (v : Result) :
    List (CacheKey × Result) :=
  (k, v) :: c

/-- Mutable state of a `GeminiAPI` instance relevant to `prompt`: the
limiter, the response cache, and instrumentation counters giving the
number of executor invocations and of `can_make_request` calls so far. -/
structure APIState where
  limiter : RateLimiterState
  cache : List (CacheKey × Result)
  execCount : Nat
  admitCalls : Nat
deriving Repr, DecidableEq

/-- Output of one `GeminiAPI.prompt` call: the returned dictionary, the
state left behind, and the `time.sleep` durations performed. -/
structure PromptOut where
  result : Result
  state : APIState
  sleeps : List Nat
deriving Repr, DecidableEq

/-- Python formatting of an optional int inside an f-string. -/
def pyOptIntStr : Option Int → String
  | some n => toString n
  | none => "None"

/-- Python formatting of an optional string inside an f-string. -/
def pyOptStr : Option String → String
  | some s => s
  | none => "None"

/-- The error text of the rate-limited branch of `prompt`. -/
def rateLimitMsg (w : Option Int) : String :=
  "Rate limit reached. Please wait " ++ pyOptIntStr w ++ " seconds."

/-- The error text of the all-retries-failed branch of `prompt`. -/
def failAllMsg (maxRetries : Nat) (lastError : Option String) : String :=
  "Failed after " ++ toString maxRetries ++ " attempts. Last error: " ++ pyOptStr lastError

/-- Outcome of the `for attempt in range(max_retries)` loop of `prompt`. -/
structure RetryOut where
  firstSuccess : Option (Result × Nat)
  sleeps : List Nat
  execs : Nat
  lastError : Option String
deriving Repr, DecidableEq

/-- The retry loop of `prompt`, run over the list of attempt indices
(`List.range max_retries` at the call site): before attempt `a > 0` sleep
`2 ^ a` seconds, invoke the executor once, stop at the first success,
remember the error of each failed attempt. -/
def runAttemptsL (e : Nat → Result) (lastError : Option String) :
    List Nat → RetryOut
  | [] => { firstSuccess := none, sleeps := [], execs := 0, lastError := lastError }
  | a :: rest =>
      let sl := if 0 < a then [2 ^ a] else []
      let res := e a
      if res.success then
        { firstSuccess := some (res, a), sleeps := sl, execs := 1, lastError := lastError }
      else
        let out := runAttemptsL e res.error rest
        { firstSuccess := out.firstSuccess, sleeps := sl ++ out.sleeps,
          execs := 1 + out.execs, lastError := out.lastError }

/-- The executor as seen from one `prompt` call: attempt `i` performs the
globally `st.execCount + i`-th subprocess invocation. -/
def promptExec (cfg : APIConfig) (oc : Nat → ProcOutcome) (st : APIState)
    (text : String) (extraFlags : Option (List String)) : Nat → Result :=
  fun i => execCmd cfg text extraFlags (oc (st.execCount + i))

/-- The cache probe at the top of `prompt`:
`use_cache and cache_key in self.response_cache`. -/
def cacheProbe (st : APIState) (key : CacheKey) (useCache : Bool) : Option Result :=
  if useCache then lookupCache st.cache key else none

/-- The cache-hit branch of `prompt`: the stored dictionary gets
`from_cache = True` written into it (the returned dictionary is the cached
one, so the mark persists in the cache). -/
def promptHit (st : APIState) (key : CacheKey) (cached : Result) : PromptOut :=
  { result := { cached with from_cache := true }
  , state := { st with cache := insertCache st.cache key { cached with from_cache := true } }
  , sleeps := [] }

/-- The rate-limited branch of `prompt`. -/
def denyResult (adm : AdmitResult) (now : Int) : Result :=
  { success := false, error := some (rateLimitMsg adm.waitTime),
    wait_time := adm.waitTime, usage := some (get_usage_stats adm.limiter now) }

/-- The dictionary returned by the successful branch of `prompt`: the
executor result of the succeeding attempt with the post-record usage
snapshot and the 1-based attempt count attached. -/
def successResult (res : Result) (ai : Nat) (lim2 : RateLimiterState) (now : Int) : Result :=
  { res with usage := some (get_usage_stats lim2 now), attempt := some (ai + 1) }

/-- The admitted part of `prompt`: run the retry loop; on the first success
record the request, cache the result dictionary when `use_cache` (the
cached dictionary aliases the returned one, so the `usage` and `attempt`
keys attached after the insertion are visible through the cache), attach
the usage snapshot and the 1-based attempt count; if every attempt failed,
return the failure message with the last error and a usage snapshot. -/
def promptRun (cfg : APIConfig) (now : Int) (st : APIState) (text : String)
    (extraFlags : Option (List String)) (useCache : Bool)
    (lim1 : RateLimiterState) (loop : RetryOut) : PromptOut :=
  match loop.firstSuccess with
  | some resAt =>
      { result := successResult resAt.1 resAt.2
          (record_request lim1 now text (resAt.1.output.getD "").length) now
      , state :=
          { limiter := record_request lim1 now text (resAt.1.output.getD "").length
          , cache :=
              if useCache then
                insertCache st.cache (text, extraFlags)
                  (successResult resAt.1 resAt.2
                    (record_request lim1 now text (resAt.1.output.getD "").length) now)
              else st.cache
          , execCount := st.execCount + loop.execs
          , admitCalls := st.admitCalls + 1 }
      , sleeps := loop.sleeps }
  | none =>
      { result := { success := false,
                    error := some (failAllMsg cfg.maxRetries loop.lastError),
                    usage := some (get_usage_stats lim1 now) }
      , state := { limiter := lim1, cache := st.cache,
                   execCount := st.execCount + loop.execs,
                   admitCalls := st.admitCalls + 1 }
      , sleeps := loop.sleeps }

/-- The cache-miss path of `prompt`: consult the rate limiter, then either
return the structured rate-limit failure (no retry, no executor call) or
run the retry loop.  `can_make_request` is pure here, so mentioning it
several times denotes the single call the Python code makes. -/
def promptMiss (cfg : APIConfig) (oc : Nat → ProcOutcome) (now : Int) (st : APIState)
    (text : String) (extraFlags : Option (List String)) (useCache : Bool) : PromptOut :=
  if (can_make_request st.limiter now).allowed then
    promptRun cfg now st text extraFlags useCache (can_make_request st.limiter now).limiter
      (runAttemptsL (promptExec cfg oc st text extraFlags) none (List.range cfg.maxRetries))
  else
    { result := denyResult (can_make_request st.limiter now) now
    , state :=
        { st with
          limiter := (can_make_request st.limiter now).limiter
          admitCalls := st.admitCalls + 1 }
    , sleeps := [] }

/-- `GeminiAPI.prompt`: cache probe first, then rate limit, then the retry
loop. -/
def prompt (cfg : APIConfig) (oc : Nat → ProcOutcome) (now : Int) (st : APIState)
    (text : String) (extraFlags : Option (List String)) (useCache : Bool) : PromptOut :=
  match cacheProbe st (text, extraFlags) useCache with
  | some cached => promptHit st (text, extraFlags) cached
  | none => promptMiss cfg oc now st text extraFlags useCache

/-- A `job_results[job_id]` entry of `gemini_server.py`. -/
structure JobRecord where
  status : String
  result : Option Result
deriving Repr, DecidableEq

/-- The entry written by the `/prompt/async` route at enqueue time
(lines 84-88 of `gemini_server.py`). -/
def asyncJobInit : JobRecord :=
  { status := "processing", result := none }

/-- The entry written by the completion callback once the worker has run the
request (lines 75-81 of `gemini_server.py`): the status is the literal
`"completed"` whatever the runner result was. -/
def asyncJobCallback (res : Result) : JobRecord :=
  { status := "completed", result := some res }

/-- The record a poller of `/job/<id>` observes after `n` registry writes
for the job: one write happens at enqueue time and a second when the
callback fires. -/
def jobView (res : Result) (n : Nat) : JobRecord :=
  if n ≤ 1 then asyncJobInit else asyncJobCallback res

/-- Position of a status in the forward order of the job state machine. -/
def statusRank : String → Nat
  | "completed" => 1
  | _ => 0

/-- One request of a serialized sequence against the rate limiter: its
`can_make_request` call happens at `checkTime`; if admitted and the
execution succeeds, its `record_request` call happens at `recordTime`,
before the next request touches the limiter. -/
structure SeqRequest where
  checkTime : Int
  recordTime : Int
  succeeds : Bool
  promptText : String
  respLen : Nat
deriving Repr, DecidableEq

/-- Run a serialized request sequence through the limiter: each request is
admitted or rejected by `can_make_request`, and an admitted successful
request records itself before the next request runs. -/
def processSeq : RateLimiterState → List SeqRequest → RateLimiterState
  | s, [] => s
  | s, q :: qs =>
      let adm := can_make_request s q.checkTime
      processSeq
        (if adm.allowed && q.succeeds then
          record_request adm.limiter q.recordTime q.promptText q.respLen
        else adm.limiter) qs

/-- The clock never runs backwards along a serialized request sequence
starting no earlier than the given instant. -/
def timesOK : Int → List SeqRequest → Bool
  | _, [] => true
  | t, q :: qs =>
      decide (t ≤ q.checkTime) && decide (q.checkTime ≤ q.recordTime) && timesOK q.recordTime qs

/-- The instant a serialized request sequence finishes. -/
def endTime : Int → List SeqRequest → Int
  | t, [] => t
  | _, q :: qs => endTime q.recordTime qs

/-- One limiter operation of an interleaved trace, tagged by the request
performing it: requests may check and record in any interleaving. -/
inductive LimEvent where
  | check (rid : Nat) (now : Int)
  | record (rid : Nat) (now : Int) (promptText : String) (len : Nat)
deriving Repr, DecidableEq

/-- Running state of the interleaved protocol: the limiter, the current
clock lower bound, and which requests have checked, been admitted, and
recorded. -/
structure ProtState where
  limiter : RateLimiterState
  tmin : Int
  checked : List Nat
  admitted : List Nat
  recorded : List Nat
deriving Repr, DecidableEq

/-- One step of the interleaved protocol.  A step is rejected (`none`) when
it violates the discipline each request must observe: the clock never
moves backwards, a request checks at most once, and a request records at
most once and only after its own check was answered with an admission. -/
def stepProt (ps : ProtState) : LimEvent → Option ProtState
  | LimEvent.check rid t =>
      if decide (t < ps.tmin) || ps.checked.contains rid then none
      else
        some { limiter := (can_make_request ps.limiter t).limiter
             , tmin := t
             , checked := rid :: ps.checked
             , admitted :=
                 if (can_make_request ps.limiter t).allowed then rid :: ps.admitted
                 else ps.admitted
             , recorded := ps.recorded }
  | LimEvent.record rid t p n =>
      if decide (t < ps.tmin) || ! ps.admitted.contains rid || ps.recorded.contains rid then
        none
      else
        some { limiter := record_request ps.limiter t p n
             , tmin := t
             , checked := ps.checked
             , admitted := ps.admitted
             , recorded := rid :: ps.recorded }

/-- Run an interleaved event trace through the limiter, rejecting traces
that break the per-request check-then-record discipline. -/
def runProt (ps : ProtState) : List LimEvent → Option ProtState
  | [] => some ps
  | e :: es =>
      match stepProt ps e with
      | some next => runProt next es
      | none => none

/-- Fresh protocol state over a limiter with the given quota and an empty
store, starting at instant 0. -/
def protInit (maxRequests : Nat) : ProtState :=
  { limiter := { maxRequests := maxRequests, records := [] }
  , tmin := 0, checked := [], admitted := [], recorded := [] }

/-! ### Rate limiter lemmas -/

theorem inWindow_iff (now : Int) (r : RateRecord) :
    inWindow now r = true ↔ now - 3600 < r.timestamp := by
  simp [inWindow]

/-- Pruning the rows the window has left behind does not change which rows a
later window sees: a row inside the window at `t ≥ tp` was not expired at
`tp`. -/
theorem filter_pruneRecords (l : List RateRecord) {tp t : Int} (h : tp ≤ t) :
    (pruneRecords l tp).filter (inWindow t) = l.filter (inWindow t) := by
  unfold pruneRecords
  rw [List.filter_filter]
  apply List.filter_congr
  intro r _
  by_cases hw : inWindow t r = true
  · have hexp : expired tp r = false := by
      rw [inWindow_iff] at hw
      simp only [expired, decide_eq_false_iff_not]
      omega
    simp [hw, hexp]
  · have hw' : inWindow t r = false := by
      revert hw; cases inWindow t r <;> simp
    simp [hw']

/-- The trailing window only loses rows as the clock advances. -/
theorem inWindowCount_mono (s : RateLimiterState) {t t' : Int} (h : t ≤ t') :
    inWindowCount s t' ≤ inWindowCount s t := by
  unfold inWindowCount
  apply List.Sublist.length_le
  apply List.monotone_filter_right
  intro r hr
  rw [inWindow_iff] at hr ⊢
  omega

/-- All branches of `can_make_request` leave behind the pruned store. -/
theorem admit_limiter (s : RateLimiterState) (t : Int) :
    (can_make_request s t).limiter = { s with records := pruneRecords s.records t } := by
  unfold can_make_request
  split
  · rfl
  · split <;> rfl

theorem admit_maxRequests (s : RateLimiterState) (t : Int) :
    (can_make_request s t).limiter.maxRequests = s.maxRequests := by
  rw [admit_limiter]

/-- `can_make_request` admits exactly when the in-window count is below the
configured maximum. -/
theorem admit_allowed_iff (s : RateLimiterState) (t : Int) :
    (can_make_request s t).allowed = true ↔ inWindowCount s t < s.maxRequests := by
  unfold can_make_request
  rw [filter_pruneRecords s.records (le_refl t)]
  by_cases h : (s.records.filter (inWindow t)).length < s.maxRequests
  · rw [if_pos h]
    simpa [inWindowCount] using h
  · rw [if_neg h]
    split <;> simpa [inWindowCount] using h

/-- The in-window count at any instant `t ≥ tc` is unchanged by the pruning
done inside `can_make_request` at `tc`. -/
theorem admit_count (s : RateLimiterState) {tc t : Int} (h : tc ≤ t) :
    inWindowCount (can_make_request s tc).limiter t = inWindowCount s t := by
  rw [admit_limiter]
  unfold inWindowCount
  rw [filter_pruneRecords s.records h]

/-- Recording adds exactly the new row to a window that contains its
timestamp. -/
theorem record_count (s : RateLimiterState) (tr : Int) (p : String) (n : Nat) (t : Int) :
    inWindowCount (record_request s tr p n) t =
      inWindowCount s t + (if inWindow t ⟨tr, p, n⟩ then 1 else 0) := by
  unfold inWindowCount record_request
  rw [List.filter_append, List.length_append]
  by_cases h : inWindow t (⟨tr, p, n⟩ : RateRecord) = true
  · simp [h]
  · have h' : inWindow t (⟨tr, p, n⟩ : RateRecord) = false := by
      revert h; cases inWindow t (⟨tr, p, n⟩ : RateRecord) <;> simp
    simp [h']

/-- A denial always carries a wait time of at least one second. -/
theorem admit_denied_wait (s : RateLimiterState) (t : Int)
    (h : (can_make_request s t).allowed = false) :
    ∃ w, (can_make_request s t).waitTime = some w ∧ 1 ≤ w := by
  unfold can_make_request at h ⊢
  split at h
  · simp at h
  · rename_i hnot
    rw [if_neg hnot]
    split
    · rename_i oldest hmin
      exact ⟨max 1 (oldest + 3600 - t), rfl, le_max_left 1 _⟩
    · exact ⟨60, rfl, by norm_num⟩

/-! ### Retry loop lemmas -/

/-- If every attempt in the list fails, the loop reports no success, makes
one executor invocation per attempt, and ends holding the error of the
last attempt. -/
theorem runAttemptsL_allFail (e : Nat → Result) :
    ∀ (l : List Nat) (le : Option String), (∀ a ∈ l, (e a).success = false) →
      (runAttemptsL e le l).firstSuccess = none ∧
      (runAttemptsL e le l).execs = l.length ∧
      (runAttemptsL e le l).lastError =
        (match l.getLast? with
         | some a => (e a).error
         | none => le) := by
  intro l
  induction l with
  | nil => intro le _; simp [runAttemptsL]
  | cons a rest ih =>
      intro le h
      have ha : (e a).success = false := h a (List.mem_cons_self a rest)
      have hrest := ih (e a).error (fun b hb => h b (List.mem_cons_of_mem a hb))
      simp only [runAttemptsL, ha, Bool.false_eq_true, if_false, List.length_cons]
      refine ⟨by simpa using hrest.1, by rw [hrest.2.1]; omega, ?_⟩
      cases hr : rest with
      | nil => simpa [hr] using hrest.2.2
      | cons b bs =>
          rw [hr] at hrest
          have hne : b :: bs ≠ [] := by simp
          have hsome : ((b :: bs).getLast?).isSome := List.getLast?_isSome.mpr hne
          cases hx : (b :: bs).getLast? with
          | none => rw [hx] at hsome; simp at hsome
          | some x =>
              rw [hrest.2.2, hx, List.getLast?_cons_cons, hx]

/-- A nonempty attempt list invokes the executor at least once. -/
theorem runAttemptsL_execs_pos (e : Nat → Result) (le : Option String)
    (l : List Nat) (h : l ≠ []) : 1 ≤ (runAttemptsL e le l).execs := by
  cases l with
  | nil => exact absurd rfl h
  | cons a rest =>
      simp only [runAttemptsL]
      by_cases hs : (e a).success = true
      · simp [hs]
      · have hs' : (e a).success = false := by
          revert hs; cases (e a).success <;> simp
        simp [hs']

/-- The last attempt index of `range k` is `k - 1`. -/
theorem range_getLast (k : Nat) (h : 0 < k) :
    (List.range k).getLast? = some (k - 1) := by
  cases k with
  | zero => omega
  | succ n =>
      rw [List.range_succ, List.getLast?_concat]
      simp

/-! ### Cache and prompt path lemmas -/

theorem lookup_insertCache (c : List (CacheKey × Result)) (k : CacheKey) (v : Result) :
    lookupCache (insertCache c k v) k = some v := by
  simp [insertCache, lookupCache]

theorem prompt_probe_some (cfg : APIConfig) (oc : Nat → ProcOutcome) (now : Int)
    (st : APIState) (text : String) (extraFlags : Option (List String)) (useCache : Bool)
    (e : Result) (h : cacheProbe st (text, extraFlags) useCache = some e) :
    prompt cfg oc now st text extraFlags useCache = promptHit st (text, extraFlags) e := by
  unfold prompt
  rw [h]

theorem prompt_probe_none (cfg : APIConfig) (oc : Nat → ProcOutcome) (now : Int)
    (st : APIState) (text : String) (extraFlags : Option (List String)) (useCache : Bool)
    (h : cacheProbe st (text, extraFlags) useCache = none) :
    prompt cfg oc now st text extraFlags useCache = promptMiss cfg oc now st text extraFlags useCache := by
  unfold prompt
  rw [h]

/-- Unfolding of `promptRun` when no attempt succeeded. -/
theorem promptRun_fs_none (cfg : APIConfig) (now : Int) (st : APIState) (text : String)
    (extraFlags : Option (List String)) (useCache : Bool) (lim1 : RateLimiterState)
    (loop : RetryOut) (hfs : loop.firstSuccess = none) :
    promptRun cfg now st text extraFlags useCache lim1 loop =
      { result := { success := false,
                    error := some (failAllMsg cfg.maxRetries loop.lastError),
                    usage := some (get_usage_stats lim1 now) }
      , state := { limiter := lim1, cache := st.cache,
                   execCount := st.execCount + loop.execs,
                   admitCalls := st.admitCalls + 1 }
      , sleeps := loop.sleeps } := by
  unfold promptRun
  rw [hfs]

/-- Unfolding of `promptRun` when attempt `ai` produced the first success. -/
theorem promptRun_fs_some (cfg : APIConfig) (now : Int) (st : APIState) (text : String)
    (extraFlags : Option (List String)) (useCache : Bool) (lim1 : RateLimiterState)
    (loop : RetryOut) (res : Result) (ai : Nat)
    (hfs : loop.firstSuccess = some (res, ai)) :
    promptRun cfg now st text extraFlags useCache lim1 loop =
      { result := successResult res ai
          (record_request lim1 now text (res.output.getD "").length) now
      , state :=
          { limiter := record_request lim1 now text (res.output.getD "").length
          , cache :=
              if useCache then
                insertCache st.cache (text, extraFlags)
                  (successResult res ai
                    (record_request lim1 now text (res.output.getD "").length) now)
              else st.cache
          , execCount := st.execCount + loop.execs
          , admitCalls := st.admitCalls + 1 }
      , sleeps := loop.sleeps } := by
  unfold promptRun
  rw [hfs]

/-- Unfolding of `promptMiss` when the limiter denies the request. -/
theorem promptMiss_denied (cfg : APIConfig) (oc : Nat → ProcOutcome) (now : Int)
    (st : APIState) (text : String) (extraFlags : Option (List String)) (useCache : Bool)
    (h : (can_make_request st.limiter now).allowed = false) :
    promptMiss cfg oc now st text extraFlags useCache =
      { result := denyResult (can_make_request st.limiter now) now
      , state :=
          { st with
            limiter := (can_make_request st.limiter now).limiter
            admitCalls := st.admitCalls + 1 }
      , sleeps := [] } := by
  unfold promptMiss
  rw [h]
  simp

/-- Unfolding of `promptMiss` when the limiter admits the request. -/
theorem promptMiss_allowed (cfg : APIConfig) (oc : Nat → ProcOutcome) (now : Int)
    (st : APIState) (text : String) (extraFlags : Option (List String)) (useCache : Bool)
    (h : (can_make_request st.limiter now).allowed = true) :
    promptMiss cfg oc now st text extraFlags useCache =
      promptRun cfg now st text extraFlags useCache (can_make_request st.limiter now).limiter
        (runAttemptsL (promptExec cfg oc st text extraFlags) none (List.range cfg.maxRetries)) := by
  unfold promptMiss
  rw [h]
  simp

/-- After a `prompt` call with `use_cache=true` that reports success, the
cache holds the returned dictionary under the request key. -/
theorem prompt_success_lookup (cfg : APIConfig) (oc : Nat → ProcOutcome) (now : Int)
    (st : APIState) (text : String) (extraFlags : Option (List String))
    (h : (prompt cfg oc now st text extraFlags true).result.success = true) :
    lookupCache (prompt cfg oc now st text extraFlags true).state.cache (text, extraFlags) =
      some (prompt cfg oc now st text extraFlags true).result := by
  cases hp : cacheProbe st (text, extraFlags) true with
  | some cached =>
      rw [prompt_probe_some cfg oc now st text extraFlags true cached hp]
      simp [promptHit, lookup_insertCache]
  | none =>
      rw [prompt_probe_none cfg oc now st text extraFlags true hp] at h ⊢
      by_cases hadm : (can_make_request st.limiter now).allowed = true
      · rw [promptMiss_allowed cfg oc now st text extraFlags true hadm] at h ⊢
        cases hfs : (runAttemptsL (promptExec cfg oc st text extraFlags) none
            (List.range cfg.maxRetries)).firstSuccess with
        | some resAt =>
            obtain ⟨res, ai⟩ := resAt
            rw [promptRun_fs_some cfg now st text extraFlags true
              (can_make_request st.limiter now).limiter _ res ai hfs]
            simp [lookup_insertCache]
        | none =>
            rw [promptRun_fs_none cfg now st text extraFlags true
              (can_make_request st.limiter now).limiter _ hfs] at h
            simp at h
      · have hadm' : (can_make_request st.limiter now).allowed = false := by
          revert hadm; cases (can_make_request st.limiter now).allowed <;> simp
        rw [promptMiss_denied cfg oc now st text extraFlags true hadm'] at h
        simp [denyResult] at h

/-! ### Concrete fixtures used by witnesses and counterexamples -/

/-- The default `GeminiAPI` configuration (`auto_approve=True`,
`checkpointing=True`, `max_retries=3`). -/
def cfgW : APIConfig := ⟨true, true, 3⟩

/-- A fresh API state with the default limiter (950 requests per hour). -/
def stW : APIState := ⟨⟨950, []⟩, [], 0, 0⟩

/-- An executor oracle whose child always exits 0 printing `ok`. -/
def ocSucc : Nat → ProcOutcome := fun _ => ProcOutcome.exited 0 "ok" ""

/-- An executor oracle whose child always hits the 300-second timeout. -/
def ocTimeout : Nat → ProcOutcome := fun _ => ProcOutcome.timedOut

/-- An executor oracle failing on the first two invocations and succeeding
from the third on. -/
def ocFFS : Nat → ProcOutcome := fun n =>
  if n ≤ 1 then ProcOutcome.exited 1 "junk" "boom" else ProcOutcome.exited 0 "ok" ""

/-- An API state whose limiter admits nothing (`max_requests = 0`). -/
def stDenied : APIState := ⟨⟨0, []⟩, [], 0, 0⟩

/-- A cache entry as produced by an earlier successful request. -/
def cachedEntryW : Result :=
  { success := true, output := some "cached", attempt := some 1 }

/-- An API state whose limiter admits nothing but whose cache already holds
an entry for prompt `p` with no extra flags. -/
def stDeniedCached : APIState := ⟨⟨0, []⟩, [(("p", none), cachedEntryW)], 0, 0⟩

/-- A saturated limiter (`max_requests = 0`) holding one in-window row. -/
def limC7 : RateLimiterState := ⟨0, [⟨10, "p", 0⟩]⟩

/-! ### C3 -/

/-- C3 as stated is false: on a non-zero exit the `output` key holds the
captured standard output, not the captured standard error (stderr goes to
the `error` key).  Concretely, a child exiting 1 with stdout `out` and
stderr `err` yields a failure whose output is `out`. -/
theorem C3_counterexample :
    (execCmd cfgW "p" none (ProcOutcome.exited 1 "out" "err")).success = false ∧
    (execCmd cfgW "p" none (ProcOutcome.exited 1 "out" "err")).output = some "out" ∧
    ¬ (execCmd cfgW "p" none (ProcOutcome.exited 1 "out" "err")).output = some "err" := by
  decide

/-- C3 amended: the executor reports failure exactly when the child exits
non-zero, times out, or the spawn raises; when the child exited (success or
not) the `output` key holds the captured stdout, with stderr in the `error`
key on a non-zero exit; on timeout the output is absent and the error is
the timeout message; on a spawn error the output is absent and the error
is the exception text. -/
theorem C3_amended_executor (cfg : APIConfig) (text : String)
    (extraFlags : Option (List String)) (o : ProcOutcome) :
    ((execCmd cfg text extraFlags o).success = false ↔
      ((∃ c out err, o = ProcOutcome.exited c out err ∧ c ≠ 0) ∨
        o = ProcOutcome.timedOut ∨ (∃ m, o = ProcOutcome.raised m))) ∧
    (∀ c out err, o = ProcOutcome.exited c out err →
      (execCmd cfg text extraFlags o).output = some out ∧
      (c = 0 → (execCmd cfg text extraFlags o).error = none) ∧
      (¬ c = 0 → (execCmd cfg text extraFlags o).error = some err)) ∧
    (o = ProcOutcome.timedOut →
      (execCmd cfg text extraFlags o).output = none ∧
      (execCmd cfg text extraFlags o).error = some "Command timed out after 5 minutes") ∧
    (∀ m, o = ProcOutcome.raised m →
      (execCmd cfg text extraFlags o).output = none ∧
      (execCmd cfg text extraFlags o).error = some m) := by
  cases o with
  | exited c out err =>
      refine ⟨?_, ?_, by simp, by simp⟩
      · by_cases hc : c = 0 <;> simp [execCmd, hc]
      · intro c2 o2 e2 heq
        cases heq
        by_cases hc : c = 0 <;> simp [execCmd, hc]
  | timedOut => simp [execCmd]
  | raised m => simp [execCmd]

/-- Witness for C3: applying the amended theorem to a child exiting 2 shows
the stderr lands in the `error` key. -/
theorem C3_amended_executor_witness :
    (execCmd cfgW "p" none (ProcOutcome.exited 2 "o" "e")).error = some "e" := by
  have h := C3_amended_executor cfgW "p" none (ProcOutcome.exited 2 "o" "e")
  exact (h.2.1 2 "o" "e" rfl).2.2 (by decide)

/-! ### C7 -/

/-- C7: whenever `can_make_request` denies, the wait time it returns is the
time until the oldest in-window record ages out (`oldest + 3600 - now`),
floored at 1 second, and 60 seconds when no in-window record exists. -/
theorem C7_wait_formula (s : RateLimiterState) (now : Int)
    (hdeny : (can_make_request s now).allowed = false) :
    (can_make_request s now).waitTime =
      some (match ((s.records.filter (inWindow now)).map RateRecord.timestamp).min? with
            | some oldest => max 1 (oldest + 3600 - now)
            | none => 60) := by
  unfold can_make_request at hdeny ⊢
  rw [filter_pruneRecords s.records (le_refl now)] at hdeny ⊢
  by_cases h : (s.records.filter (inWindow now)).length < s.maxRequests
  · rw [if_pos h] at hdeny
    simp at hdeny
  · rw [if_neg h]
    cases hmin : ((s.records.filter (inWindow now)).map RateRecord.timestamp).min? with
    | some oldest => simp
    | none => simp

/-- Witness for C7: a saturated limiter holding a row stamped 10, asked at
instant 20, reports a wait of 10 + 3600 - 20 = 3590 seconds. -/
theorem C7_wait_formula_witness : (can_make_request limC7 20).waitTime = some 3590 := by
  have h := C7_wait_formula limC7 20 (by decide)
  rw [h]
  decide

/-! ### C6 -/

/-- C6: a request not served from cache and denied by the limiter returns a
structured failure carrying a wait time of at least one second and the
current usage snapshot, sleeps never, and leaves the executor invocation
count untouched. -/
theorem C6_rate_limited (cfg : APIConfig) (oc : Nat → ProcOutcome) (now : Int)
    (st : APIState) (text : String) (extraFlags : Option (List String)) (useCache : Bool)
    (hnc : cacheProbe st (text, extraFlags) useCache = none)
    (hdeny : (can_make_request st.limiter now).allowed = false) :
    (prompt cfg oc now st text extraFlags useCache).result.success = false ∧
    (∃ w, (prompt cfg oc now st text extraFlags useCache).result.wait_time = some w ∧ 1 ≤ w) ∧
    (prompt cfg oc now st text extraFlags useCache).result.usage =
      some (get_usage_stats (can_make_request st.limiter now).limiter now) ∧
    (prompt cfg oc now st text extraFlags useCache).state.execCount = st.execCount ∧
    (prompt cfg oc now st text extraFlags useCache).sleeps = [] := by
  rw [prompt_probe_none cfg oc now st text extraFlags useCache hnc,
    promptMiss_denied cfg oc now st text extraFlags useCache hdeny]
  obtain ⟨w, hw, h1⟩ := admit_denied_wait st.limiter now hdeny
  exact ⟨rfl, ⟨w, by simpa [denyResult] using hw, h1⟩, rfl, rfl, rfl⟩

/-- Witness for C6: a request against a limiter with `max_requests = 0`
comes back rate-limited without touching the executor. -/
theorem C6_rate_limited_witness :
    (prompt cfgW ocSucc 0 stDenied "p" none false).result.success = false ∧
    (∃ w, (prompt cfgW ocSucc 0 stDenied "p" none false).result.wait_time = some w ∧ 1 ≤ w) ∧
    (prompt cfgW ocSucc 0 stDenied "p" none false).result.usage =
      some (get_usage_stats (can_make_request stDenied.limiter 0).limiter 0) ∧
    (prompt cfgW ocSucc 0 stDenied "p" none false).state.execCount = stDenied.execCount ∧
    (prompt cfgW ocSucc 0 stDenied "p" none false).sleeps = [] :=
  C6_rate_limited cfgW ocSucc 0 stDenied "p" none false (by decide) (by decide)

/-! ### C2 -/

/-- C2 as stated is false: the completion callback of the async route
writes the status literal `completed` whatever the runner returned, so a
job whose runner failed (here: every attempt times out) terminates with
status `completed`, not `failed`. -/
theorem C2_counterexample :
    (prompt cfgW ocTimeout 0 stW "p" none false).result.success = false ∧
    (asyncJobCallback (prompt cfgW ocTimeout 0 stW "p" none false).result).status = "completed" ∧
    ¬ (asyncJobCallback (prompt cfgW ocTimeout 0 stW "p" none false).result).status = "failed" := by
  decide

/-- C2 amended: a poller observes job statuses only in the forward order
`processing` then `completed`; the terminal write is `completed` whatever
the runner returned (the runner outcome is carried in the stored result,
not in the status), a terminal record never changes afterwards, and no
status outside these two is ever observable. -/
theorem C2_amended_monotone (res : Result) (m n : Nat) (h : m ≤ n) :
    statusRank (jobView res m).status ≤ statusRank (jobView res n).status ∧
    ((jobView res m).status = "completed" → jobView res n = jobView res m) ∧
    ((jobView res n).status = "processing" ∨ (jobView res n).status = "completed") := by
  unfold jobView
  by_cases hm : m ≤ 1
  · rw [if_pos hm]
    by_cases hn : n ≤ 1
    · rw [if_pos hn]
      exact ⟨le_refl _, fun _ => rfl, Or.inl rfl⟩
    · rw [if_neg hn]
      refine ⟨Nat.zero_le _, ?_, Or.inr rfl⟩
      intro hc
      exact absurd hc (by decide)
  · have hn : ¬ n ≤ 1 := by omega
    rw [if_neg hm, if_neg hn]
    exact ⟨le_refl _, fun _ => rfl, Or.inr rfl⟩

/-- Witness for C2: a poller that saw the enqueue-time record and polls
again after the callback observes a rank increase from `processing` to
`completed`. -/
theorem C2_amended_monotone_witness :
    statusRank (jobView cachedEntryW 1).status ≤ statusRank (jobView cachedEntryW 2).status :=
  (C2_amended_monotone cachedEntryW 1 2 (by decide)).1

/-! ### C4 -/

/-- C4: with `max_retries = 3`, an admitted request whose executor fails on
the first two attempts and succeeds on the third performs exactly two extra
attempts with sleeps of 2 then 4 seconds, stops at the first success,
returns that attempt's output, and reports `attempt = 3`. -/
theorem C4_retry_backoff (cfg : APIConfig) (oc : Nat → ProcOutcome) (now : Int)
    (st : APIState) (text : String) (extraFlags : Option (List String)) (useCache : Bool)
    (hmr : cfg.maxRetries = 3)
    (hnc : cacheProbe st (text, extraFlags) useCache = none)
    (hadm : (can_make_request st.limiter now).allowed = true)
    (h0 : (execCmd cfg text extraFlags (oc (st.execCount + 0))).success = false)
    (h1 : (execCmd cfg text extraFlags (oc (st.execCount + 1))).success = false)
    (h2 : (execCmd cfg text extraFlags (oc (st.execCount + 2))).success = true) :
    (prompt cfg oc now st text extraFlags useCache).sleeps = [2, 4] ∧
    (prompt cfg oc now st text extraFlags useCache).result.attempt = some 3 ∧
    (prompt cfg oc now st text extraFlags useCache).result.success = true ∧
    (prompt cfg oc now st text extraFlags useCache).result.output =
      (execCmd cfg text extraFlags (oc (st.execCount + 2))).output ∧
    (prompt cfg oc now st text extraFlags useCache).state.execCount = st.execCount + 3 := by
  have e0 : (promptExec cfg oc st text extraFlags 0).success = false := h0
  have e1 : (promptExec cfg oc st text extraFlags 1).success = false := h1
  have e2 : (promptExec cfg oc st text extraFlags 2).success = true := h2
  have hloop : runAttemptsL (promptExec cfg oc st text extraFlags) none (List.range 3) =
      { firstSuccess := some (promptExec cfg oc st text extraFlags 2, 2)
      , sleeps := [2, 4], execs := 3
      , lastError := (promptExec cfg oc st text extraFlags 1).error } := by
    rw [show List.range 3 = [0, 1, 2] from rfl]
    simp [runAttemptsL, e0, e1, e2]
  have hfs : (runAttemptsL (promptExec cfg oc st text extraFlags) none
      (List.range cfg.maxRetries)).firstSuccess =
      some (promptExec cfg oc st text extraFlags 2, 2) := by
    rw [hmr, hloop]
  rw [prompt_probe_none cfg oc now st text extraFlags useCache hnc,
    promptMiss_allowed cfg oc now st text extraFlags useCache hadm,
    promptRun_fs_some cfg now st text extraFlags useCache
      (can_make_request st.limiter now).limiter _
      (promptExec cfg oc st text extraFlags 2) 2 hfs]
  refine ⟨?_, rfl, e2, rfl, ?_⟩
  · rw [hmr, hloop]
  · rw [hmr, hloop]

/-- Witness for C4: the fail-fail-succeed oracle run through a fresh state
sleeps 2 then 4 seconds and reports the third attempt. -/
theorem C4_retry_backoff_witness :
    (prompt cfgW ocFFS 0 stW "p" none false).sleeps = [2, 4] ∧
    (prompt cfgW ocFFS 0 stW "p" none false).result.attempt = some 3 := by
  have h := C4_retry_backoff cfgW ocFFS 0 stW "p" none false rfl (by decide) (by decide)
    (by decide) (by decide) (by decide)
  exact ⟨h.1, h.2.1⟩

/-! ### C8 -/

/-- C8: an admitted request all of whose attempts fail never calls
`record_request` (the limiter state is exactly the pruned store left by the
admission check, and the in-window count is unchanged, so no quota is
consumed); the returned failure carries the last attempt's error inside
its message and the current usage snapshot, and the cache is untouched. -/
theorem C8_all_fail (cfg : APIConfig) (oc : Nat → ProcOutcome) (now : Int)
    (st : APIState) (text : String) (extraFlags : Option (List String)) (useCache : Bool)
    (hpos : 0 < cfg.maxRetries)
    (hnc : cacheProbe st (text, extraFlags) useCache = none)
    (hadm : (can_make_request st.limiter now).allowed = true)
    (hfail : ∀ i, i < cfg.maxRetries →
      (execCmd cfg text extraFlags (oc (st.execCount + i))).success = false) :
    (prompt cfg oc now st text extraFlags useCache).state.limiter =
      (can_make_request st.limiter now).limiter ∧
    inWindowCount (prompt cfg oc now st text extraFlags useCache).state.limiter now =
      inWindowCount st.limiter now ∧
    (prompt cfg oc now st text extraFlags useCache).result.success = false ∧
    (prompt cfg oc now st text extraFlags useCache).result.error =
      some (failAllMsg cfg.maxRetries
        (execCmd cfg text extraFlags (oc (st.execCount + (cfg.maxRetries - 1)))).error) ∧
    (prompt cfg oc now st text extraFlags useCache).result.usage =
      some (get_usage_stats (can_make_request st.limiter now).limiter now) ∧
    (prompt cfg oc now st text extraFlags useCache).state.cache = st.cache := by
  have hall := runAttemptsL_allFail (promptExec cfg oc st text extraFlags)
    (List.range cfg.maxRetries) none
    (fun a ha => hfail a (List.mem_range.mp ha))
  rw [prompt_probe_none cfg oc now st text extraFlags useCache hnc,
    promptMiss_allowed cfg oc now st text extraFlags useCache hadm,
    promptRun_fs_none cfg now st text extraFlags useCache
      (can_make_request st.limiter now).limiter _ hall.1]
  refine ⟨rfl, admit_count st.limiter (le_refl now), rfl, ?_, rfl, rfl⟩
  have hlast := hall.2.2
  rw [range_getLast cfg.maxRetries hpos] at hlast
  rw [hlast]
  rfl

/-- Witness for C8: with the always-timing-out oracle no quota is consumed
and the final message embeds the timeout error. -/
theorem C8_all_fail_witness :
    (prompt cfgW ocTimeout 0 stW "p" none false).state.limiter =
      (can_make_request stW.limiter 0).limiter ∧
    inWindowCount (prompt cfgW ocTimeout 0 stW "p" none false).state.limiter 0 =
      inWindowCount stW.limiter 0 ∧
    (prompt cfgW ocTimeout 0 stW "p" none false).result.success = false ∧
    (prompt cfgW ocTimeout 0 stW "p" none false).result.error =
      some (failAllMsg cfgW.maxRetries
        (execCmd cfgW "p" none (ocTimeout (stW.execCount + (cfgW.maxRetries - 1)))).error) ∧
    (prompt cfgW ocTimeout 0 stW "p" none false).result.usage =
      some (get_usage_stats (can_make_request stW.limiter 0).limiter 0) ∧
    (prompt cfgW ocTimeout 0 stW "p" none false).state.cache = stW.cache :=
  C8_all_fail cfgW ocTimeout 0 stW "p" none false (by decide) (by decide) (by decide)
    (fun i _ => by simp [ocTimeout, execCmd])

/-! ### C5 -/

/-- C5: after a successful request with `use_cache=true`, an identical
request (same prompt, same flags, `use_cache=true`) is answered from the
cache: it is tagged `from_cache=true`, returns byte-identical output,
performs no executor invocation, never consults the limiter, consumes no
quota, and sleeps never. -/
theorem C5_cache_hit (cfg : APIConfig) (oc : Nat → ProcOutcome) (now1 now2 : Int)
    (st : APIState) (text : String) (extraFlags : Option (List String))
    (h : (prompt cfg oc now1 st text extraFlags true).result.success = true) :
    (prompt cfg oc now2 (prompt cfg oc now1 st text extraFlags true).state
        text extraFlags true).result.from_cache = true ∧
    (prompt cfg oc now2 (prompt cfg oc now1 st text extraFlags true).state
        text extraFlags true).result.output =
      (prompt cfg oc now1 st text extraFlags true).result.output ∧
    (prompt cfg oc now2 (prompt cfg oc now1 st text extraFlags true).state
        text extraFlags true).state.execCount =
      (prompt cfg oc now1 st text extraFlags true).state.execCount ∧
    (prompt cfg oc now2 (prompt cfg oc now1 st text extraFlags true).state
        text extraFlags true).state.admitCalls =
      (prompt cfg oc now1 st text extraFlags true).state.admitCalls ∧
    (prompt cfg oc now2 (prompt cfg oc now1 st text extraFlags true).state
        text extraFlags true).state.limiter =
      (prompt cfg oc now1 st text extraFlags true).state.limiter ∧
    (prompt cfg oc now2 (prompt cfg oc now1 st text extraFlags true).state
        text extraFlags true).sleeps = [] := by
  have hl := prompt_success_lookup cfg oc now1 st text extraFlags h
  have hp : cacheProbe (prompt cfg oc now1 st text extraFlags true).state
      (text, extraFlags) true = some (prompt cfg oc now1 st text extraFlags true).result := by
    simp [cacheProbe, hl]
  rw [prompt_probe_some cfg oc now2 (prompt cfg oc now1 st text extraFlags true).state
    text extraFlags true (prompt cfg oc now1 st text extraFlags true).result hp]
  exact ⟨rfl, rfl, rfl, rfl, rfl, rfl⟩

/-- Witness for C5: a successful request followed by an identical one; the
second is served from the cache with the same output. -/
theorem C5_cache_hit_witness :
    (prompt cfgW ocSucc 7 (prompt cfgW ocSucc 0 stW "p" none true).state
        "p" none true).result.from_cache = true ∧
    (prompt cfgW ocSucc 7 (prompt cfgW ocSucc 0 stW "p" none true).state
        "p" none true).result.output =
      (prompt cfgW ocSucc 0 stW "p" none true).result.output := by
  have h := C5_cache_hit cfgW ocSucc 0 7 stW "p" none (by decide)
  exact ⟨h.1, h.2.1⟩

/-! ### C10 -/

/-- C10: a cache hit returns the stored entry with only its `from_cache`
field set to true — its usage snapshot and attempt count are the stored
values, not recomputed — and the `from_cache=true` mark is written back
into the cache under the same key, where every later identical hit finds
it; the limiter and the executor count are untouched. -/
theorem C10_hit_frame (cfg : APIConfig) (oc : Nat → ProcOutcome) (now : Int)
    (st : APIState) (text : String) (extraFlags : Option (List String)) (e : Result)
    (hhit : lookupCache st.cache (text, extraFlags) = some e) :
    (prompt cfg oc now st text extraFlags true).result = { e with from_cache := true } ∧
    (prompt cfg oc now st text extraFlags true).result.usage = e.usage ∧
    (prompt cfg oc now st text extraFlags true).result.attempt = e.attempt ∧
    (prompt cfg oc now st text extraFlags true).state.cache =
      insertCache st.cache (text, extraFlags) { e with from_cache := true } ∧
    lookupCache (prompt cfg oc now st text extraFlags true).state.cache (text, extraFlags) =
      some { e with from_cache := true } ∧
    (prompt cfg oc now st text extraFlags true).state.limiter = st.limiter ∧
    (prompt cfg oc now st text extraFlags true).state.execCount = st.execCount ∧
    (∀ now2, (prompt cfg oc now2 (prompt cfg oc now st text extraFlags true).state
        text extraFlags true).result = { e with from_cache := true }) := by
  have hp : cacheProbe st (text, extraFlags) true = some e := by
    simp [cacheProbe, hhit]
  rw [prompt_probe_some cfg oc now st text extraFlags true e hp]
  refine ⟨rfl, rfl, rfl, rfl, lookup_insertCache st.cache (text, extraFlags) _, rfl, rfl, ?_⟩
  intro now2
  have hp2 : cacheProbe (promptHit st (text, extraFlags) e).state (text, extraFlags) true =
      some { e with from_cache := true } := by
    simp [cacheProbe, promptHit, lookup_insertCache]
  rw [prompt_probe_some cfg oc now2 (promptHit st (text, extraFlags) e).state
    text extraFlags true { e with from_cache := true } hp2]
  rfl

/-- Witness for C10: hitting the prefilled cache of `stDeniedCached`
returns the stored entry marked `from_cache` with its stored attempt
count. -/
theorem C10_hit_frame_witness :
    (prompt cfgW ocSucc 0 stDeniedCached "p" none true).result =
      { cachedEntryW with from_cache := true } ∧
    (prompt cfgW ocSucc 0 stDeniedCached "p" none true).result.attempt =
      cachedEntryW.attempt := by
  have h := C10_hit_frame cfgW ocSucc 0 stDeniedCached "p" none cachedEntryW (by decide)
  exact ⟨h.1, h.2.2.1⟩

/-! ### C9 -/

/-- C9 as stated is false: a request with `use_cache=false` that the rate
limiter denies never invokes the executor, whatever the cache holds.
Concretely, against `stDeniedCached` (quota 0, cache entry present) the
executor invocation count does not grow. -/
theorem C9_counterexample :
    ¬ (∀ (cfg : APIConfig) (oc : Nat → ProcOutcome) (now : Int) (st : APIState)
        (text : String) (extraFlags : Option (List String)),
        st.execCount < (prompt cfg oc now st text extraFlags false).state.execCount) := by
  intro hclaim
  have h := hclaim cfgW ocSucc 0 stDeniedCached "p" none
  revert h
  decide

/-- C9 amended: with `use_cache=false` the cache is neither consulted nor
updated — the request leaves the cache unchanged and its result and
executor usage are independent of the cache contents — and whenever the
limiter admits the request (and `max_retries > 0`) the executor is
invoked regardless of any prior cache state. -/
theorem C9_amended_no_cache (cfg : APIConfig) (oc : Nat → ProcOutcome) (now : Int)
    (st1 st2 : APIState) (text : String) (extraFlags : Option (List String))
    (hlim : st2.limiter = st1.limiter) (hexec : st2.execCount = st1.execCount) :
    (prompt cfg oc now st1 text extraFlags false).state.cache = st1.cache ∧
    (prompt cfg oc now st2 text extraFlags false).result =
      (prompt cfg oc now st1 text extraFlags false).result ∧
    ((can_make_request st1.limiter now).allowed = true → 0 < cfg.maxRetries →
      st1.execCount < (prompt cfg oc now st1 text extraFlags false).state.execCount) := by
  have hpe : promptExec cfg oc st2 text extraFlags = promptExec cfg oc st1 text extraFlags := by
    unfold promptExec
    rw [hexec]
  rw [prompt_probe_none cfg oc now st1 text extraFlags false rfl,
    prompt_probe_none cfg oc now st2 text extraFlags false rfl]
  by_cases hadm : (can_make_request st1.limiter now).allowed = true
  · have hadm2 : (can_make_request st2.limiter now).allowed = true := by
      rw [hlim]; exact hadm
    rw [promptMiss_allowed cfg oc now st1 text extraFlags false hadm,
      promptMiss_allowed cfg oc now st2 text extraFlags false hadm2, hpe, hlim]
    cases hfs : (runAttemptsL (promptExec cfg oc st1 text extraFlags) none
        (List.range cfg.maxRetries)).firstSuccess with
    | some resAt =>
        obtain ⟨res, ai⟩ := resAt
        rw [promptRun_fs_some cfg now st1 text extraFlags false
            (can_make_request st1.limiter now).limiter _ res ai hfs,
          promptRun_fs_some cfg now st2 text extraFlags false
            (can_make_request st1.limiter now).limiter _ res ai hfs]
        refine ⟨rfl, rfl, fun _ hk => ?_⟩
        have hone : 1 ≤ (runAttemptsL (promptExec cfg oc st1 text extraFlags) none
            (List.range cfg.maxRetries)).execs := by
          apply runAttemptsL_execs_pos
          intro hnil
          rw [List.range_eq_nil] at hnil
          omega
        show st1.execCount < st1.execCount + (runAttemptsL (promptExec cfg oc st1 text extraFlags)
          none (List.range cfg.maxRetries)).execs
        omega
    | none =>
        rw [promptRun_fs_none cfg now st1 text extraFlags false
            (can_make_request st1.limiter now).limiter _ hfs,
          promptRun_fs_none cfg now st2 text extraFlags false
            (can_make_request st1.limiter now).limiter _ hfs]
        refine ⟨rfl, rfl, fun _ hk => ?_⟩
        have hone : 1 ≤ (runAttemptsL (promptExec cfg oc st1 text extraFlags) none
            (List.range cfg.maxRetries)).execs := by
          apply runAttemptsL_execs_pos
          intro hnil
          rw [List.range_eq_nil] at hnil
          omega
        show st1.execCount < st1.execCount + (runAttemptsL (promptExec cfg oc st1 text extraFlags)
          none (List.range cfg.maxRetries)).execs
        omega
  · have hadm' : (can_make_request st1.limiter now).allowed = false := by
      revert hadm; cases (can_make_request st1.limiter now).allowed <;> simp
    have hadm2 : (can_make_request st2.limiter now).allowed = false := by
      rw [hlim]; exact hadm'
    rw [promptMiss_denied cfg oc now st1 text extraFlags false hadm',
      promptMiss_denied cfg oc now st2 text extraFlags false hadm2, hlim]
    exact ⟨rfl, rfl, fun hc _ => absurd hc (by rw [hadm']; simp)⟩

/-- Witness for C9: two states differing only in the cache produce the same
result with `use_cache=false`, and the admitted fresh state does invoke
the executor. -/
theorem C9_amended_no_cache_witness :
    (prompt cfgW ocSucc 0 stW "p" none false).state.cache = stW.cache ∧
    (prompt cfgW ocSucc 0 ⟨stW.limiter, [(("p", none), cachedEntryW)], stW.execCount,
        stW.admitCalls⟩ "p" none false).result =
      (prompt cfgW ocSucc 0 stW "p" none false).result ∧
    stW.execCount < (prompt cfgW ocSucc 0 stW "p" none false).state.execCount := by
  have h := C9_amended_no_cache cfgW ocSucc 0 stW
    ⟨stW.limiter, [(("p", none), cachedEntryW)], stW.execCount, stW.admitCalls⟩
    "p" none rfl rfl
  exact ⟨h.1, h.2.1, h.2.2 (by decide) (by decide)⟩

/-! ### C1 -/

/-- The interleaved trace refuting C1: with `max_requests = 1`, two
requests both pass `can_make_request` before either records, then both
record. -/
def cexEvents : List LimEvent :=
  [LimEvent.check 1 0, LimEvent.check 2 0,
   LimEvent.record 1 0 "a" 0, LimEvent.record 2 0 "b" 0]

/-- The protocol state the refuting trace ends in. -/
def cexFinal : ProtState :=
  { limiter := { maxRequests := 1, records := [⟨0, "a", 0⟩, ⟨0, "b", 0⟩] }
  , tmin := 0, checked := [2, 1], admitted := [2, 1], recorded := [2, 1] }

/-- C1 as stated is false: over interleaved sequences in which every
request first calls `can_make_request` and records only after being
admitted, the in-window record count can exceed `max_requests` — the
admission check is not atomic with the record.  With quota 1, two requests
that both check before either records leave two in-window records. -/
theorem C1_counterexample :
    ¬ (∀ (events : List LimEvent) (final : ProtState),
        runProt (protInit 1) events = some final →
        inWindowCount final.limiter final.tmin ≤ (protInit 1).limiter.maxRequests) := by
  intro hclaim
  have h := hclaim cexEvents cexFinal (by decide)
  revert h
  decide

/-- C1 amended: over serialized request sequences — each admitted request's
`record_request` completes before the next request's `can_make_request`
runs — the count of records with timestamp within the trailing 3600
seconds never exceeds `max_requests`: starting from any store satisfying
the bound, it still holds after processing the whole sequence, at any
instant from the end of the sequence on (every prefix of a serialized
sequence is itself such a sequence, so every intermediate state is
covered). -/
theorem C1_amended_serialized (s : RateLimiterState) (t0 : Int) (qs : List SeqRequest)
    (t : Int)
    (hinv : inWindowCount s t0 ≤ s.maxRequests)
    (hwf : timesOK t0 qs = true)
    (ht : endTime t0 qs ≤ t) :
    inWindowCount (processSeq s qs) t ≤ s.maxRequests := by
  induction qs generalizing s t0 with
  | nil =>
      simp only [processSeq]
      exact le_trans (inWindowCount_mono s ht) hinv
  | cons q qs ih =>
      simp only [timesOK, Bool.and_eq_true, decide_eq_true_eq] at hwf
      obtain ⟨⟨h1, h2⟩, hwf'⟩ := hwf
      simp only [processSeq]
      by_cases hb : ((can_make_request s q.checkTime).allowed && q.succeeds) = true
      · rw [if_pos hb]
        have hallowed : (can_make_request s q.checkTime).allowed = true :=
          (Bool.and_eq_true _ _).mp hb |>.1
        have hlt : inWindowCount s q.checkTime < s.maxRequests :=
          (admit_allowed_iff s q.checkTime).mp hallowed
        have hcount : inWindowCount
            (record_request (can_make_request s q.checkTime).limiter q.recordTime
              q.promptText q.respLen) q.recordTime ≤ s.maxRequests := by
          rw [record_count, admit_count s h2]
          have hmono := inWindowCount_mono s h2
          split
          · omega
          · omega
        have hmax : (record_request (can_make_request s q.checkTime).limiter q.recordTime
            q.promptText q.respLen).maxRequests = s.maxRequests := by
          have := admit_maxRequests s q.checkTime
          simpa [record_request] using this
        have := ih (record_request (can_make_request s q.checkTime).limiter q.recordTime
            q.promptText q.respLen) q.recordTime (by rw [hmax]; exact hcount) hwf'
            (by simpa [endTime] using ht)
        rw [hmax] at this
        exact this
      · rw [if_neg hb]
        have hcount : inWindowCount (can_make_request s q.checkTime).limiter q.recordTime ≤
            s.maxRequests := by
          rw [admit_count s h2]
          have hm1 := inWindowCount_mono s h2
          have hm2 := inWindowCount_mono s h1
          omega
        have := ih (can_make_request s q.checkTime).limiter q.recordTime
            (by rw [admit_maxRequests]; exact hcount) hwf'
            (by simpa [endTime] using ht)
        rw [admit_maxRequests] at this
        exact this

/-- The serialized sequence used as witness: two requests one after the
other against a quota of one; the second is denied and the bound holds. -/
def c1wReqs : List SeqRequest := [⟨0, 0, true, "a", 0⟩, ⟨5, 5, true, "b", 0⟩]

/-- Witness for C1: the serialized two-request run against quota 1 ends
with at most one in-window record. -/
theorem C1_amended_serialized_witness :
    inWindowCount (processSeq ⟨1, []⟩ c1wReqs) 5 ≤ 1 :=
  C1_amended_serialized ⟨1, []⟩ 0 c1wReqs 5 (by decide) (by decide) (by decide)

end GeminiProxy
